import Mathlib

/-!
Verification of the arduino-kernel repository: two near-duplicate sketches
(src/unnamed/part_000, "Variant A", and src/source/arduino/arduino.ino,
"Variant B") that poll an analog pressure sensor and stream readings over a
serial link, gated by plaintext start/stop commands.

The embedding models:
  * the global state (`isRunning : bool`, `inputCommand : String`) as
    `InterpState` with the command buffer as a `List Char`;
  * `loop()`'s serial-input branch as `processChar` (one byte per call,
    exactly the if/else structure of the source), producing the next state
    and any status lines printed by that branch (Variant A prints status
    lines on recognized commands; Variant B's are commented out — the state
    transition is identical in both variants);
  * Arduino `String::trim` (strips `isspace` bytes at both ends) and
    `String::equalsIgnoreCase` (`tolower`-wise comparison) over `List Char`;
  * the sampling branch's arithmetic over ℚ, the exact-real idealization of
    the source's float expressions:
      `voltage = sensorValue * (5.0 / 1023.0)`
      `pressure_kPa = (voltage / 5.0 - 0.095) / 0.009`
      `pressure_bar = pressure_kPa / 100.0`;
  * a whole loop iteration (`loopIter`: drain at most one serial byte, then
    sample and emit iff `isRunning`) and traces of iterations (`runTrace`).
-/

namespace ArduinoKernel

/-- A line terminator as tested by the source: `inChar == '\n' || inChar == '\r'`. -/
def isTerm (c : Char) : Bool := c = '\n' || c = '\r'

/-- The C `isspace` set used by Arduino `String::trim`. -/
def isSpaceByte (c : Char) : Bool :=
  c = ' ' || c = '\t' || c = '\n' || c = '\x0b' || c = '\x0c' || c = '\r'

/-- Arduino `String::trim`: remove leading and trailing whitespace. -/
def trim (cs : List Char) : List Char :=
  ((cs.dropWhile isSpaceByte).reverse.dropWhile isSpaceByte).reverse

/-- Arduino `String::equalsIgnoreCase`: equal length and `tolower`-equal
bytes, i.e. equality after mapping ASCII `toLower`. -/
def equalsIgnoreCase (a b : List Char) : Bool :=
  a.map Char.toLower == b.map Char.toLower

/-- The sketch's global mutable state: `bool isRunning` and
`String inputCommand`. -/
structure InterpState where
  isRunning : Bool
  inputCommand : List Char
deriving DecidableEq, Repr

/-- The initial state at boot: `isRunning = false`, `inputCommand = ""`. -/
def initState : InterpState := ⟨false, []⟩

/-- The serial-input branch of `loop()` applied to one available byte:
on `'\n'`/`'\r'` trim the buffer, compare case-insensitively with "start"
and "stop", set the run flag accordingly, and clear the buffer; otherwise
append the byte to the buffer.  The second component is the list of status
lines Variant A prints in this branch (Variant B prints none; its state
transition is the same). -/
def processChar (st : InterpState) (c : Char) : InterpState × List (List Char) :=
  if isTerm c then
    let cmd := trim st.inputCommand
    if equalsIgnoreCase cmd "start".data then
      (⟨true, []⟩, ["Pressure data collection STARTED.".data])
    else if equalsIgnoreCase cmd "stop".data then
      (⟨false, []⟩, ["Pressure data collection STOPPED.".data])
    else
      (⟨st.isRunning, []⟩, [])
  else
    (⟨st.isRunning, st.inputCommand ++ [c]⟩, [])

/-- Feed a sequence of bytes to the command interpreter, collecting the
status output. -/
def runBytesOut (st : InterpState) : List Char → InterpState × List (List Char)
  | [] => (st, [])
  | c :: cs =>
    let p := processChar st c
    let q := runBytesOut p.1 cs
    (q.1, p.2 ++ q.2)

/-- Feed a sequence of bytes to the command interpreter (state only). -/
def runBytes (st : InterpState) (cs : List Char) : InterpState :=
  (runBytesOut st cs).1

/-! ### Specification-side view of the byte stream (from the claims' words)

The claims speak of "terminated, whitespace-trimmed, case-insensitively
compared lines".  `linesAux`/`completedLines` split a byte stream into the
complete (terminated) lines and the unterminated remainder; `classify`
labels a line as a start token, a stop token, or neither; `lastToken` is
the value of the last recognized token, defaulting to the initial STOPPED
value. -/

/-- Split a byte stream into terminated lines (first component) and the
unterminated trailing bytes (second component), starting from a partial
line `buf`. -/
def linesAux : List Char → List Char → List (List Char) × List Char
  | buf, [] => ([], buf)
  | buf, c :: cs =>
    if isTerm c then
      ((buf :: (linesAux [] cs).1), (linesAux [] cs).2)
    else linesAux (buf ++ [c]) cs

/-- The terminated lines of a byte stream. -/
def completedLines (cs : List Char) : List (List Char) := (linesAux [] cs).1

/-- Classify a line after whitespace-trimming and case-insensitive
comparison: `some true` for a start token, `some false` for a stop token,
`none` otherwise. -/
def classify (line : List Char) : Option Bool :=
  if equalsIgnoreCase (trim line) "start".data then some true
  else if equalsIgnoreCase (trim line) "stop".data then some false
  else none

/-- The run state dictated by the claims' words: the last recognized
start/stop token among the terminated lines, or the initial STOPPED value
(`false`) if no line matched either token. -/
def lastToken (cs : List Char) : Bool :=
  (((completedLines cs).filterMap classify).getLast?).getD false

/-! ### Sampler / converter arithmetic (exact-real idealization over ℚ) -/

/-- Variant A and B: `float voltage = sensorValue * (5.0 / 1023.0);`. -/
def voltage (s : ℚ) : ℚ := s * (5 / 1023)

/-- Variant B: `float pressure_kPa = (voltage / 5.0 - 0.095) / 0.009;`. -/
def pressure_kPa (s : ℚ) : ℚ := (voltage s / 5 - 0.095) / 0.009

/-- Variant B: `float pressure_bar = pressure_kPa / 100.0;`. -/
def pressure_bar (s : ℚ) : ℚ := pressure_kPa s / 100

/-- The spec's conversion formula, from its words: "voltage = `s * 5.0 /
1023.0`". -/
def specVoltage (s : ℚ) : ℚ := s * 5 / 1023

/-- The spec's Variant-B formula, from its words: "pressure_bar =
`((voltage/5.0 - 0.095) / 0.009) / 100.0`". -/
def specPressureBar (s : ℚ) : ℚ := ((specVoltage s / 5 - 0.095) / 0.009) / 100

/-! ### Whole loop iterations and traces -/

/-- The environment of one `loop()` iteration: the serial byte available
this iteration (if any) and the value `analogRead` would return. -/
structure LoopInput where
  serial : Option Char
  sample : ℚ
deriving Repr

/-- The serial-input branch of one iteration: `if (Serial.available() > 0)`
process one byte, else leave the state alone. -/
def interpAvail (st : InterpState) (inp : Option Char) : InterpState :=
  match inp with
  | some c => (processChar st c).1
  | none => st

/-- One full `loop()` iteration of Variant B: drain at most one serial byte,
then, iff `isRunning`, read the sample, convert it, and emit the reading. -/
def loopIter (st : InterpState) (inp : LoopInput) : InterpState × List ℚ :=
  let st1 := interpAvail st inp.serial
  if st1.isRunning then (st1, [pressure_bar inp.sample]) else (st1, [])

/-- Run a sequence of loop iterations, collecting all emitted readings. -/
def runTrace (st : InterpState) : List LoopInput → InterpState × List ℚ
  | [] => (st, [])
  | i :: rest =>
    let p := loopIter st i
    let q := runTrace p.1 rest
    (q.1, p.2 ++ q.2)

/-! ### Helper lemmas -/

theorem runBytesOut_append (as bs : List Char) (st : InterpState) :
    runBytesOut st (as ++ bs) =
      ((runBytesOut (runBytesOut st as).1 bs).1,
        (runBytesOut st as).2 ++ (runBytesOut (runBytesOut st as).1 bs).2) := by
  induction as generalizing st with
  | nil => simp [runBytesOut]
  | cons c as ih => simp [runBytesOut, ih]

theorem runBytesOut_no_term (line : List Char) (st : InterpState)
    (h : ∀ x ∈ line, isTerm x = false) :
    runBytesOut st line = (⟨st.isRunning, st.inputCommand ++ line⟩, []) := by
  induction line generalizing st with
  | nil => simp [runBytesOut]
  | cons c cs ih =>
    have hc : isTerm c = false := h c (by simp)
    have hcs : ∀ x ∈ cs, isTerm x = false := fun x hx => h x (by simp [hx])
    simp [runBytesOut, processChar, hc, ih _ hcs]

theorem getLast?_getD_cons (v b : Bool) (l : List Bool) :
    ((v :: l).getLast?).getD b = (l.getLast?).getD v := by
  induction l generalizing v b with
  | nil => rfl
  | cons c l ih => rw [List.getLast?_cons_cons, ih c b, ih c v]

theorem foldl_classify_getD (ls : List (List Char)) (b : Bool) :
    ls.foldl (fun acc l => (classify l).getD acc) b =
      ((ls.filterMap classify).getLast?).getD b := by
  induction ls generalizing b with
  | nil => rfl
  | cons l ls ih =>
    cases hl : classify l with
    | none => simp [List.filterMap_cons, hl, ih]
    | some v => simp [List.filterMap_cons, hl, ih, getLast?_getD_cons]

theorem runBytes_linesAux (cs : List Char) (b : Bool) (buf : List Char) :
    runBytes ⟨b, buf⟩ cs =
      ⟨(linesAux buf cs).1.foldl (fun acc l => (classify l).getD acc) b,
        (linesAux buf cs).2⟩ := by
  induction cs generalizing b buf with
  | nil => simp [runBytes, runBytesOut, linesAux]
  | cons c cs ih =>
    by_cases hc : isTerm c = true
    · have hstep : runBytes ⟨b, buf⟩ (c :: cs) = runBytes (processChar ⟨b, buf⟩ c).1 cs := by
        simp [runBytes, runBytesOut]
      rw [hstep]
      simp only [linesAux, hc, if_pos rfl]
      by_cases hstart : equalsIgnoreCase (trim buf) "start".data = true
      · have hcl : classify buf = some true := by simp [classify, hstart]
        simp [processChar, hc, hstart, ih, hcl]
      · by_cases hstop : equalsIgnoreCase (trim buf) "stop".data = true
        · have hcl : classify buf = some false := by simp [classify, hstart, hstop]
          simp [processChar, hc, hstart, hstop, ih, hcl]
        · have hcl : classify buf = none := by simp [classify, hstart, hstop]
          simp [processChar, hc, hstart, hstop, ih, hcl]
    · have hc' : isTerm c = false := by simpa using hc
      have hstep : runBytes ⟨b, buf⟩ (c :: cs) = runBytes ⟨b, buf ++ [c]⟩ cs := by
        simp [runBytes, runBytesOut, processChar, hc']
      rw [hstep, ih]
      simp [linesAux, hc']

/-! ### Claim theorems -/

/-- Claim C1: starting from the initial STOPPED state, the run state after
processing any finite byte sequence equals the value of the last recognized
start/stop token among the terminated, whitespace-trimmed, case-insensitively
compared lines, defaulting to STOPPED when no line matched either token. -/
theorem c1_last_token (cs : List Char) :
    (runBytes initState cs).isRunning = lastToken cs := by
  have h := runBytes_linesAux cs false []
  rw [show initState = (⟨false, []⟩ : InterpState) from rfl, h]
  simp [lastToken, completedLines, foldl_classify_getD]

/-- Claim C8: at the ADC range boundaries the voltage conversion yields the
exact endpoints: sample 0 maps to 0 V and sample 1023 maps to 5 V. -/
theorem c8_boundary : voltage 0 = 0 ∧ voltage 1023 = 5 := by
  constructor <;> norm_num [voltage]

/-- Claim C2: for every raw sample in [0, 1023] the converter computes
voltage = s * 5.0 / 1023.0 and (Variant B) pressure_bar =
((voltage/5.0 - 0.095) / 0.009) / 100.0, exactly the spec's formulas; the
conversion is the value of a pure function of the sample alone. -/
theorem c2_conversion (s : ℚ) (h0 : 0 ≤ s) (h1 : s ≤ 1023) :
    voltage s = specVoltage s ∧ pressure_bar s = specPressureBar s := by
  constructor
  · unfold voltage specVoltage; ring
  · unfold pressure_bar pressure_kPa voltage specPressureBar specVoltage; ring

/-- Witness for C2 at the concrete sample 511. -/
theorem c2_conversion_witness :
    (0 : ℚ) ≤ 511 ∧ (511 : ℚ) ≤ 1023 ∧
      (voltage 511 = specVoltage 511 ∧ pressure_bar 511 = specPressureBar 511) :=
  ⟨by norm_num, by norm_num, c2_conversion 511 (by norm_num) (by norm_num)⟩

/-- Counterexample to C3 as stated: at sample 511 the computed voltage is
2555/1023 ≈ 2.4976, which is NOT approximately 2.4985 — it misses it by
about 0.00094, far more than a half-unit (0.00005) of the claim's last
quoted decimal place, and even more than the generous tolerance 0.0005
used here. -/
theorem c3_counterexample :
    ¬ (|voltage 511 - 2.4985| ≤ 5 / 10000) := by
  norm_num [voltage, abs_le]

/-- Claim C3 (amended): at sample 511 the computed voltage is exactly
2555/1023, approximately 2.4976; Variant B's pressure_bar at 511 is exactly
82763/184140 ≈ 0.449457, whose 6-decimal rounding (the printed precision)
is 0.449457. -/
theorem c3_amended :
    voltage 511 = 2555 / 1023 ∧ |voltage 511 - 2.4976| ≤ 5 / 100000 ∧
      pressure_bar 511 = 82763 / 184140 ∧
      |pressure_bar 511 - 0.449457| ≤ 5 / 10000000 := by
  refine ⟨by norm_num [voltage], ?_, by norm_num [pressure_bar, pressure_kPa, voltage], ?_⟩
  · norm_num [voltage, abs_le]
  · norm_num [pressure_bar, pressure_kPa, voltage, abs_le]

/-- The pressure conversion is affine in the sample with positive slope. -/
theorem pressure_bar_affine (s : ℚ) :
    pressure_bar s = s * (10 / 9207) - 19 / 180 := by
  unfold pressure_bar pressure_kPa voltage; ring

/-- Claim C10: Variant B's pressure_bar is monotonically increasing in the
sample and bounded over [0, 1023] between its endpoint values
-19/180 ≈ -0.1056 and 181/180 ≈ 1.0056; small samples yield negative
pressures. -/
theorem c10_pressure_monotone (s t : ℚ) (h0 : 0 ≤ s) (hst : s < t) (ht : t ≤ 1023) :
    pressure_bar s < pressure_bar t ∧
      pressure_bar 0 ≤ pressure_bar s ∧ pressure_bar t ≤ pressure_bar 1023 ∧
      pressure_bar 0 = -(19 / 180) ∧ |pressure_bar 0 - -(0.1056)| ≤ 1 / 10000 ∧
      pressure_bar 1023 = 181 / 180 ∧ |pressure_bar 1023 - 1.0056| ≤ 1 / 10000 ∧
      pressure_bar 0 < 0 ∧ pressure_bar 97 < 0 := by
  simp only [pressure_bar_affine]
  refine ⟨by linarith, by linarith, by linarith, by norm_num, by norm_num [abs_le],
    by norm_num, by norm_num [abs_le], by norm_num, by norm_num⟩

/-- Witness for C10 at the concrete samples 50 < 100. -/
theorem c10_pressure_monotone_witness :
    (0 : ℚ) ≤ 50 ∧ (50 : ℚ) < 100 ∧ (100 : ℚ) ≤ 1023 ∧
      (pressure_bar 50 < pressure_bar 100 ∧
        pressure_bar 0 ≤ pressure_bar 50 ∧ pressure_bar 100 ≤ pressure_bar 1023 ∧
        pressure_bar 0 = -(19 / 180) ∧ |pressure_bar 0 - -(0.1056)| ≤ 1 / 10000 ∧
        pressure_bar 1023 = 181 / 180 ∧ |pressure_bar 1023 - 1.0056| ≤ 1 / 10000 ∧
        pressure_bar 0 < 0 ∧ pressure_bar 97 < 0) :=
  ⟨by norm_num, by norm_num, by norm_num,
    c10_pressure_monotone 50 100 (by norm_num) (by norm_num) (by norm_num)⟩

/-- Claim C7: after the interpreter processes any line terminator, the
command buffer is empty, whatever the buffered line matched. -/
theorem c7_buffer_cleared (st : InterpState) (c : Char) (hc : isTerm c = true) :
    ((processChar st c).1).inputCommand = [] := by
  unfold processChar
  rw [hc]
  by_cases h1 : equalsIgnoreCase (trim st.inputCommand) "start".data = true
  · simp [h1]
  · by_cases h2 : equalsIgnoreCase (trim st.inputCommand) "stop".data = true
    · simp [h1, h2]
    · simp [h1, h2]

/-- Witness for C7: a terminator after a buffered non-command clears the
buffer. -/
theorem c7_buffer_cleared_witness :
    isTerm '\n' = true ∧
      ((processChar ⟨false, ['f', 'o', 'o']⟩ '\n').1).inputCommand = [] :=
  ⟨by decide, c7_buffer_cleared ⟨false, ['f', 'o', 'o']⟩ '\n' (by decide)⟩

/-- Claim C9: a non-terminator byte is appended to the command buffer and
nothing else happens: the run state is unchanged and no output is emitted. -/
theorem c9_append_char (st : InterpState) (c : Char) (hc : isTerm c = false) :
    processChar st c = (⟨st.isRunning, st.inputCommand ++ [c]⟩, []) := by
  unfold processChar
  rw [hc]
  simp

/-- Witness for C9 at the concrete byte 'x'. -/
theorem c9_append_char_witness :
    isTerm 'x' = false ∧
      processChar ⟨true, ['a']⟩ 'x' = (⟨true, ['a', 'x']⟩, []) :=
  ⟨by decide, c9_append_char ⟨true, ['a']⟩ 'x' (by decide)⟩

/-- Claim C4: the start and stop commands are idempotent on the run state:
a terminated line trimming (case-insensitively) to "start" processed while
already RUNNING leaves the state RUNNING, and one trimming to "stop"
processed while already STOPPED leaves it STOPPED. -/
theorem c4_idempotent (b : Bool) (line : List Char) (c : Char)
    (hline : ∀ x ∈ line, isTerm x = false) (hc : isTerm c = true)
    (hmatch : equalsIgnoreCase (trim line)
      (if b then "start".data else "stop".data) = true) :
    (runBytes ⟨b, []⟩ (line ++ [c])).isRunning = b := by
  have hpref : runBytesOut ⟨b, []⟩ line = (⟨b, line⟩, []) := by
    simpa using runBytesOut_no_term line ⟨b, []⟩ hline
  have hsplit := runBytesOut_append line [c] ⟨b, []⟩
  rw [hpref] at hsplit
  unfold runBytes
  rw [hsplit]
  cases b with
  | true =>
    have hm : equalsIgnoreCase (trim line) "start".data = true := by
      simpa using hmatch
    simp [runBytesOut, processChar, hc, hm]
  | false =>
    have hm : equalsIgnoreCase (trim line) "stop".data = true := by
      simpa using hmatch
    have hnotstart : equalsIgnoreCase (trim line) "start".data = false := by
      cases hx : equalsIgnoreCase (trim line) "start".data with
      | false => rfl
      | true =>
        exfalso
        unfold equalsIgnoreCase at hm hx
        have h1 := eq_of_beq hm
        have h2 := eq_of_beq hx
        exact absurd (h2.symm.trans h1) (by decide)
    simp [runBytesOut, processChar, hc, hm, hnotstart]

/-- Witness for C4: "StArT" terminated by a newline while already RUNNING
leaves the state RUNNING. -/
theorem c4_idempotent_witness :
    (∀ x ∈ "StArT".data, isTerm x = false) ∧ isTerm '\n' = true ∧
      equalsIgnoreCase (trim "StArT".data)
        (if true then "start".data else "stop".data) = true ∧
      (runBytes ⟨true, []⟩ ("StArT".data ++ ['\n'])).isRunning = true :=
  ⟨by decide, by decide, by decide,
    c4_idempotent true "StArT".data '\n' (by decide) (by decide) (by decide)⟩

/-- Claim C5: a terminated line that matches neither "start" nor "stop"
(the empty line included) is silently discarded: run state unchanged, the
buffer cleared, and no output emitted for that line. -/
theorem c5_silent_discard (st : InterpState) (line : List Char) (c : Char)
    (hbuf : st.inputCommand = []) (hline : ∀ x ∈ line, isTerm x = false)
    (hc : isTerm c = true)
    (hns : equalsIgnoreCase (trim line) "start".data = false)
    (hnp : equalsIgnoreCase (trim line) "stop".data = false) :
    runBytesOut st (line ++ [c]) = (⟨st.isRunning, []⟩, []) := by
  have hpref : runBytesOut st line = (⟨st.isRunning, line⟩, []) := by
    rw [runBytesOut_no_term line st hline, hbuf]
    simp
  have hsplit := runBytesOut_append line [c] st
  rw [hpref] at hsplit
  rw [hsplit]
  simp [runBytesOut, processChar, hc, hns, hnp]

/-- Witness for C5: the line "foobar" terminated by a newline is discarded
with no state change and no output. -/
theorem c5_silent_discard_witness :
    (∀ x ∈ "foobar".data, isTerm x = false) ∧ isTerm '\n' = true ∧
      equalsIgnoreCase (trim "foobar".data) "start".data = false ∧
      equalsIgnoreCase (trim "foobar".data) "stop".data = false ∧
      runBytesOut ⟨false, []⟩ ("foobar".data ++ ['\n']) = (⟨false, []⟩, []) :=
  ⟨by decide, by decide, by decide, by decide,
    c5_silent_discard ⟨false, []⟩ "foobar".data '\n' rfl (by decide) (by decide)
      (by decide) (by decide)⟩

/-- While the interpreter is STOPPED with a terminator-free buffer and no
terminated line of the remaining serial input classifies as a start token,
a trace of loop iterations emits nothing and ends STOPPED. -/
theorem runTrace_stopped (steps : List LoopInput) :
    ∀ st : InterpState, st.isRunning = false →
      (∀ x ∈ st.inputCommand, isTerm x = false) →
      (∀ l ∈ (linesAux st.inputCommand (steps.filterMap LoopInput.serial)).1,
        classify l ≠ some true) →
      (runTrace st steps).2 = [] ∧ (runTrace st steps).1.isRunning = false := by
  induction steps with
  | nil => intro st hrun _ _; exact ⟨rfl, hrun⟩
  | cons i rest ih =>
    intro st hrun hbuf hns
    cases hser : i.serial with
    | none =>
      have hfm : (i :: rest).filterMap LoopInput.serial =
          rest.filterMap LoopInput.serial := by
        simp [List.filterMap_cons, hser]
      rw [hfm] at hns
      have hstep := ih st hrun hbuf hns
      have hrw : runTrace st (i :: rest) =
          ((runTrace st rest).1, [] ++ (runTrace st rest).2) := by
        simp [runTrace, loopIter, interpAvail, hser, hrun]
      rw [hrw]
      simpa using hstep
    | some c =>
      have hfm : (i :: rest).filterMap LoopInput.serial =
          c :: rest.filterMap LoopInput.serial := by
        simp [List.filterMap_cons, hser]
      rw [hfm] at hns
      by_cases hc : isTerm c = true
      · have hla : (linesAux st.inputCommand (c :: rest.filterMap LoopInput.serial)).1 =
            st.inputCommand :: (linesAux [] (rest.filterMap LoopInput.serial)).1 := by
          simp [linesAux, hc]
        rw [hla] at hns
        have hhead : classify st.inputCommand ≠ some true :=
          hns st.inputCommand (List.mem_cons_self _ _)
        have hstart : equalsIgnoreCase (trim st.inputCommand) "start".data = false := by
          cases hx : equalsIgnoreCase (trim st.inputCommand) "start".data with
          | false => rfl
          | true => exact absurd (by simp [classify, hx]) hhead
        have hst1 : ((processChar st c).1).isRunning = false ∧
            ((processChar st c).1).inputCommand = [] := by
          unfold processChar
          rw [hc]
          by_cases hstop : equalsIgnoreCase (trim st.inputCommand) "stop".data = true
          · simp [hstart, hstop]
          · simp [hstart, hstop, hrun]
        have hns' : ∀ l ∈ (linesAux ((processChar st c).1).inputCommand
            (rest.filterMap LoopInput.serial)).1, classify l ≠ some true := by
          rw [hst1.2]
          intro l hl
          exact hns l (List.mem_cons_of_mem _ hl)
        have hbuf' : ∀ x ∈ ((processChar st c).1).inputCommand, isTerm x = false := by
          rw [hst1.2]
          intro x hx
          cases hx
        have hstep := ih (processChar st c).1 hst1.1 hbuf' hns'
        have hiter : loopIter st i = ((processChar st c).1, []) := by
          simp [loopIter, interpAvail, hser, hst1.1]
        have hrw : runTrace st (i :: rest) =
            ((runTrace (processChar st c).1 rest).1,
              [] ++ (runTrace (processChar st c).1 rest).2) := by
          simp [runTrace, hiter]
        rw [hrw]
        simpa using hstep
      · have hc' : isTerm c = false := by simpa using hc
        have hpc : processChar st c =
            (⟨st.isRunning, st.inputCommand ++ [c]⟩, []) := by
          unfold processChar
          rw [hc']
          simp
        have hla : linesAux st.inputCommand (c :: rest.filterMap LoopInput.serial) =
            linesAux (st.inputCommand ++ [c]) (rest.filterMap LoopInput.serial) := by
          simp [linesAux, hc']
        rw [hla] at hns
        have hbuf' : ∀ x ∈ st.inputCommand ++ [c], isTerm x = false := by
          intro x hx
          rcases List.mem_append.mp hx with h | h
          · exact hbuf x h
          · simp at h
            subst h
            exact hc'
        have hstep := ih ⟨st.isRunning, st.inputCommand ++ [c]⟩ hrun hbuf' hns
        have hiter : loopIter st i = (⟨st.isRunning, st.inputCommand ++ [c]⟩, []) := by
          simp [loopIter, interpAvail, hser, hpc, hrun]
        have hrw : runTrace st (i :: rest) =
            ((runTrace ⟨st.isRunning, st.inputCommand ++ [c]⟩ rest).1,
              [] ++ (runTrace ⟨st.isRunning, st.inputCommand ++ [c]⟩ rest).2) := by
          simp [runTrace, hiter]
        rw [hrw]
        simpa using hstep

/-- Claim C6: a loop iteration emits a reading iff the run state (after that
iteration's serial-input processing) is RUNNING; and from a STOPPED state
with an empty buffer — in particular the state right after a stop line is
processed — no reading is emitted for as long as no terminated line of the
incoming bytes is a start token. -/
theorem c6_sampling_gated :
    (∀ (st : InterpState) (inp : LoopInput),
      (loopIter st inp).2 ≠ [] ↔ (interpAvail st inp.serial).isRunning = true) ∧
    (∀ (st : InterpState) (steps : List LoopInput),
      st.isRunning = false → st.inputCommand = [] →
      (∀ l ∈ completedLines (steps.filterMap LoopInput.serial),
        classify l ≠ some true) →
      (runTrace st steps).2 = []) := by
  constructor
  · intro st inp
    unfold loopIter
    cases hr : (interpAvail st inp.serial).isRunning <;> simp [hr]
  · intro st steps hrun hbuf hns
    have hbuf' : ∀ x ∈ st.inputCommand, isTerm x = false := by
      rw [hbuf]
      intro x hx
      cases hx
    have hns' : ∀ l ∈ (linesAux st.inputCommand (steps.filterMap LoopInput.serial)).1,
        classify l ≠ some true := by
      rw [hbuf]
      exact hns
    exact (runTrace_stopped steps st hrun hbuf' hns').1

/-- Witness for C6: after the stop line, feeding a non-command line and idle
iterations emits no reading. -/
theorem c6_sampling_gated_witness :
    (runTrace initState
      [⟨some 'f', 10⟩, ⟨some '\n', 20⟩, ⟨none, 30⟩, ⟨some 'x', 40⟩]).2 = [] :=
  c6_sampling_gated.2 initState
    [⟨some 'f', 10⟩, ⟨some '\n', 20⟩, ⟨none, 30⟩, ⟨some 'x', 40⟩]
    rfl rfl (by decide)

end ArduinoKernel
